import Mathlib

/-!
# gramtools: search states and the backward-search interface

A shallow embedding of

* `src/libgramtools/include/search/search_types.hpp`
  (`SearchVariantSiteState`, `SearchState`, `SearchState::operator==`), and
* `src/libgramtools/include/bwt_search.hpp`
  (the declarations `precalc_ranks`, `bidir_search`, `skip`).

Unsigned machine integers are embedded as `Nat`.  `operator==` only compares
values, and the backward-search sums `C[c] + rank(c, i)` never exceed the
length of the index, so no wrap-around can occur and no reduction modulo
`2^64` is needed.
-/

set_option autoImplicit false

namespace gram

/-! ## Types of `prg/prg.hpp` used by `SearchState` -/

/-- Modelled from the spec: the type `SA_Index` is declared in `prg/prg.hpp`,
which is not among the sources.  A suffix-array position. -/
abbrev SA_Index := Nat

/-- Modelled from the spec: the type `SA_Interval` is declared in `prg/prg.hpp`,
which is not among the sources.  "A half-open range `[left, right)` over
suffix-array positions": the pair `(left, right)`. -/
abbrev SA_Interval := SA_Index × SA_Index

/-- Modelled from the spec: the type `Marker` (site identifier) is declared in
`prg/prg.hpp`, which is not among the sources. -/
abbrev Marker := Nat

/-- Modelled from the spec: the type `AlleleId` is declared in `prg/prg.hpp`,
which is not among the sources. -/
abbrev AlleleId := Nat

/-- Modelled from the spec: the type `VariantSite` is declared in `prg/prg.hpp`,
which is not among the sources.  A "(site identifier, allele identifier)" pair. -/
abbrev VariantSite := Marker × AlleleId

/-- Modelled from the spec: the type `VariantSitePath` is declared in
`prg/prg.hpp`, which is not among the sources.  "An ordered sequence of
(site identifier, allele identifier) pairs." -/
abbrev VariantSitePath := List VariantSite

/-! ## `search_types.hpp` -/

/-- The enumeration `enum class SearchVariantSiteState` (search_types.hpp:8-12). -/
inductive SearchVariantSiteState where
  | within_variant_site
  | outside_variant_site
  | unknown
  deriving DecidableEq, Repr

/-- The record `struct SearchState` (search_types.hpp:15-22).  The default value of
each field is the default member initialiser of the source: `= {}` value-initialises
a pair of integers to `(0, 0)` and a sequence to the empty sequence. -/
structure SearchState where
  sa_interval : SA_Interval := (0, 0)
  variant_site_path : VariantSitePath := []
  variant_site_state : SearchVariantSiteState := SearchVariantSiteState.unknown
  cache_populated : Bool := false
  cached_variant_site : VariantSite := (0, 0)
  invalid : Bool := false
  deriving Repr

namespace SearchState

/-- The member `SearchState::operator==` (search_types.hpp:24-30): the conjunction of
five field comparisons, in the order of the source.  The field `invalid` is not
read. -/
def operator_eq (self other : SearchState) : Bool :=
  self.sa_interval == other.sa_interval
    && self.variant_site_path == other.variant_site_path
    && self.variant_site_state == other.variant_site_state
    && self.cache_populated == other.cache_populated
    && self.cached_variant_site == other.cached_variant_site

/-- A default-constructed `SearchState`: every field takes its default member
initialiser. -/
def default_constructed : SearchState := {}

/-- The assignment `s.invalid = v`, all other fields untouched. -/
def set_invalid (s : SearchState) (v : Bool) : SearchState :=
  { s with invalid := v }

end SearchState

/-! ## `bwt_search.hpp`

The header only declares `precalc_ranks`, `bidir_search` and `skip`; their bodies, and
the types `FM_Index` and `DNA_Rank` (`kmers.hpp`, `ranks.hpp`, sdsl), are not among the
sources.  The definitions below follow sections 3, 4.1 and 4.3 of the specification.
`skip` (bwt_search.hpp:21) is not embedded: section 4.2 does not fix how its new bounds
are computed from the rank counts and its two value parameters. -/

/-- Modelled from the spec: the type `FM_Index` comes from sdsl and is not among the
sources.  The specification treats the index as a pre-built black box exposing its
total length, the character at a given BWT position and the table `C[c]`; the model
keeps the BWT as a sequence of symbols (natural numbers, bases and markers alike) and
derives the rest from it. -/
structure FM_Index where
  bwt : List Nat
  deriving Repr

namespace FM_Index

/-- Modelled from the spec: "(i) total length" of the index. -/
def size (fm_index : FM_Index) : Nat := fm_index.bwt.length

/-- Modelled from the spec: "(iii) count-of-smaller-symbols (`C[c]`) table over the
alphabet": the number of symbols of the index that are smaller than `c`. -/
def C (fm_index : FM_Index) (c : Nat) : Nat :=
  fm_index.bwt.countP (fun x => decide (x < c))

/-- The true occurrence count the rank cache is specified against: the number of
occurrences of `c` in BWT positions `[0, i)`. -/
def occ (fm_index : FM_Index) (c i : Nat) : Nat := (fm_index.bwt.take i).count c

end FM_Index

/-- Modelled from the spec: the type `DNA_Rank` is declared in `ranks.hpp`, which is
not among the sources.  "One entry per relevant checkpoint of the BWT, mapping symbol
→ cumulative occurrence count up to that checkpoint": for each cached symbol, the
list of its cumulative counts, entry `k` belonging to the checkpoint at position
`k * stride`. -/
abbrev DNA_Rank := List (Nat × List Nat)

/-- Modelled from the spec: the body of `precalc_ranks` is not among the sources; this
is its single pass over the BWT for one symbol `c`.  `gap` is the number of
positions left before the next checkpoint and `acc` the number of occurrences of `c`
seen so far; a checkpoint records `acc` and restarts the gap at `stride - 1`. -/
def scan_checkpoints (stride c : Nat) : List Nat → Nat → Nat → List Nat
  | [], 0, acc => [acc]
  | [], _ + 1, _ => []
  | x :: xs, 0, acc =>
      acc :: scan_checkpoints stride c xs (stride - 1) (if x = c then acc + 1 else acc)
  | x :: xs, gap + 1, acc =>
      scan_checkpoints stride c xs gap (if x = c then acc + 1 else acc)

/-- Modelled from the spec: `precalc_ranks` is only declared (bwt_search.hpp:14), its
body is not among the sources.  Section 4.1: "given the Full-Text Index, precompute a
structure supporting, for each symbol c in the base (non-marker) alphabet and each
position i, an occurrence-count query", "checkpointing at a fixed stride", built in
"O(index length × alphabet size)".  The cache that the source passes as the reference
parameter `rank_all` is the returned value; the fixed stride and the base alphabet,
constants of the missing body, are parameters. -/
def precalc_ranks (stride : Nat) (alphabet : List Nat) (fm_index : FM_Index) : DNA_Rank :=
  alphabet.map (fun c => (c, scan_checkpoints stride c fm_index.bwt 0 0))

/-- Modelled from the spec: the rank query `rank(c, i)` on the cache, whose code
(`ranks.hpp`) is not among the sources.  Section 4.1: "checkpointing at a fixed stride
and counting forward from the nearest checkpoint".  The query fails (`none`) for a
symbol that is not cached and for a position beyond the reach of the last checkpoint. -/
def rank (stride : Nat) (fm_index : FM_Index) (rank_all : DNA_Rank) (c i : Nat) :
    Option Nat :=
  match rank_all.lookup c with
  | none => none
  | some cps =>
    match cps[i / stride]? with
    | none => none
    | some base =>
      some (base + ((fm_index.bwt.drop (i / stride * stride)).take (i % stride)).count c)

/-- Modelled from the spec: `bidir_search` is only declared (bwt_search.hpp:16-19), its
body is not among the sources.  Section 4.3: "For a base character, apply the standard
backward-search update: `new_left = C[c] + rank(c, left)`,
`new_right = C[c] + rank(c, right)`, yielding a single narrower (or empty) interval",
the rank queries being answered by the rank cache `rank_all`. -/
def bidir_search (stride : Nat) (next_char : Nat) (sa_interval : SA_Interval)
    (rank_all : DNA_Rank) (fm_index : FM_Index) : Option SA_Interval :=
  match rank stride fm_index rank_all next_char sa_interval.1,
        rank stride fm_index rank_all next_char sa_interval.2 with
  | some rank_left, some rank_right =>
      some (fm_index.C next_char + rank_left, fm_index.C next_char + rank_right)
  | _, _ => none

/-! ## Concrete values used to instantiate the theorems -/

/-- The index of the linearised graph `a c a 5 g 6 t 5 g c t c` (bases `a c g t` coded
`1 2 3 4`, site markers `5` and `6`, end symbol `0`): its BWT. -/
def example_fm_index : FM_Index :=
  { bwt := [2, 0, 2, 4, 1, 3, 5, 5, 2, 6, 4, 1, 3] }

/-- The base alphabet of the example: `a c g t`. -/
def example_alphabet : List Nat := [1, 2, 3, 4]

/-- A state inside site 5 on allele 1 whose path crossed site 7 before site 5. -/
def example_state : SearchState :=
  { sa_interval := (3, 6)
    variant_site_path := [(7, 2), (5, 1)]
    variant_site_state := SearchVariantSiteState.within_variant_site
    cache_populated := true
    cached_variant_site := (5, 1) }

/-- The state `example_state` with the two entries of its path in the other order. -/
def example_state_reordered : SearchState :=
  { example_state with variant_site_path := [(5, 1), (7, 2)] }

/-- The state `example_state` with only the first entry of its path. -/
def example_state_shorter : SearchState :=
  { example_state with variant_site_path := [(7, 2)] }

/-- A state whose cache flag is unset while its cached site still holds `(5, 1)`. -/
def example_state_stale_cache : SearchState :=
  { cached_variant_site := (5, 1) }

/-! ### Helper lemmas on `operator==` -/

theorem operator_eq_iff_fields (a b : SearchState) :
    a.operator_eq b = true ↔
      a.sa_interval = b.sa_interval
        ∧ a.variant_site_path = b.variant_site_path
        ∧ a.variant_site_state = b.variant_site_state
        ∧ a.cache_populated = b.cache_populated
        ∧ a.cached_variant_site = b.cached_variant_site := by
  simp only [SearchState.operator_eq, Bool.and_eq_true, beq_iff_eq, and_assoc]

theorem operator_eq_false_of_path_ne (a b : SearchState)
    (h : a.variant_site_path ≠ b.variant_site_path) : a.operator_eq b = false := by
  cases hab : a.operator_eq b with
  | false => rfl
  | true => exact absurd ((operator_eq_iff_fields a b).1 hab).2.1 h

/-! ### Helper lemmas on the rank cache -/

theorem count_cons_if (c x : Nat) (xs : List Nat) :
    (x :: xs).count c = (if x = c then 1 else 0) + xs.count c := by
  by_cases h : x = c
  · subst h; simp; omega
  · have h2 : ¬ (x == c) = true := by simpa using h
    simp [List.count_cons, h, h2]

theorem scan_checkpoints_getElem? (stride c : Nat) (hs : 0 < stride) :
    ∀ (xs : List Nat) (gap acc k : Nat),
      (scan_checkpoints stride c xs gap acc)[k]? =
        if gap + k * stride ≤ xs.length then some (acc + (xs.take (gap + k * stride)).count c)
        else none := by
  intro xs
  induction xs with
  | nil =>
    intro gap acc k
    cases gap with
    | zero =>
      cases k with
      | zero => simp [scan_checkpoints]
      | succ k =>
        have h1 : 0 < (k + 1) * stride := Nat.mul_pos (Nat.succ_pos k) hs
        have h2 : ¬ (k + 1) * stride = 0 := by omega
        simp [scan_checkpoints, h2]
    | succ g => simp [scan_checkpoints]
  | cons x xs ih =>
    intro gap acc k
    cases gap with
    | zero =>
      cases k with
      | zero => simp [scan_checkpoints]
      | succ k =>
        have e : 0 + (k + 1) * stride = (stride - 1 + k * stride) + 1 := by
          rw [Nat.succ_mul]; omega
        rw [e]
        simp only [scan_checkpoints, List.getElem?_cons_succ, ih,
          List.length_cons, Nat.add_le_add_iff_right, List.take_succ_cons, count_cons_if]
        by_cases hx : x = c <;> by_cases hl : stride - 1 + k * stride ≤ xs.length <;>
          simp [hx, hl]
        all_goals omega
    | succ g =>
      have e : g + 1 + k * stride = (g + k * stride) + 1 := by omega
      rw [e]
      simp only [scan_checkpoints, ih, List.length_cons, Nat.add_le_add_iff_right,
        List.take_succ_cons, count_cons_if]
      by_cases hx : x = c <;> by_cases hl : g + k * stride ≤ xs.length <;>
        simp [hx, hl]
      all_goals omega

theorem lookup_precalc_ranks (stride : Nat) (alphabet : List Nat) (fm_index : FM_Index)
    (c : Nat) (hc : c ∈ alphabet) :
    (precalc_ranks stride alphabet fm_index).lookup c
      = some (scan_checkpoints stride c fm_index.bwt 0 0) := by
  unfold precalc_ranks
  induction alphabet with
  | nil => simp at hc
  | cons a as ih =>
    by_cases hca : c = a
    · subst hca
      simp [List.lookup]
    · have hmem : c ∈ as := by
        rcases List.mem_cons.1 hc with h | h
        · exact absurd h hca
        · exact h
      have hbeq : (c == a) = false := by simpa using hca
      simp only [List.map_cons, List.lookup, hbeq]
      exact ih hmem

theorem count_take_split (c : Nat) (xs : List Nat) (m n : Nat) :
    (xs.take (m + n)).count c = (xs.take m).count c + ((xs.drop m).take n).count c := by
  rw [List.take_add, List.count_append]

theorem rank_precalc_ranks (stride : Nat) (alphabet : List Nat) (fm_index : FM_Index)
    (c i : Nat) (hs : 0 < stride) (hc : c ∈ alphabet) (hi : i ≤ fm_index.size) :
    rank stride fm_index (precalc_ranks stride alphabet fm_index) c i
      = some (fm_index.occ c i) := by
  have hk : 0 + i / stride * stride ≤ fm_index.bwt.length := by
    have := Nat.div_mul_le_self i stride
    unfold FM_Index.size at hi
    omega
  have hsplit : i = i / stride * stride + i % stride := by
    have := Nat.div_add_mod i stride
    rw [Nat.mul_comm] at this
    omega
  unfold rank
  rw [lookup_precalc_ranks stride alphabet fm_index c hc]
  simp only [scan_checkpoints_getElem? stride c hs, hk, if_true]
  unfold FM_Index.occ
  conv_rhs => rw [hsplit, count_take_split]
  simp

theorem occ_mono (fm_index : FM_Index) (c l r : Nat) (h : l ≤ r) :
    fm_index.occ c l ≤ fm_index.occ c r ∧ fm_index.occ c r - fm_index.occ c l ≤ r - l := by
  unfold FM_Index.occ
  obtain ⟨d, rfl⟩ := Nat.exists_eq_add_of_le h
  rw [count_take_split]
  have h1 : ((fm_index.bwt.drop l).take d).count c ≤ ((fm_index.bwt.drop l).take d).length :=
    List.count_le_length _ _
  have h2 : ((fm_index.bwt.drop l).take d).length ≤ d := by
    rw [List.length_take]; exact Nat.min_le_left _ _
  omega

theorem bidir_search_precalc_ranks (stride : Nat) (alphabet : List Nat) (fm_index : FM_Index)
    (next_char : Nat) (sa_interval : SA_Interval)
    (hs : 0 < stride) (hc : next_char ∈ alphabet)
    (hlr : sa_interval.1 ≤ sa_interval.2) (hr : sa_interval.2 ≤ fm_index.size) :
    bidir_search stride next_char sa_interval (precalc_ranks stride alphabet fm_index) fm_index
      = some (fm_index.C next_char + fm_index.occ next_char sa_interval.1,
              fm_index.C next_char + fm_index.occ next_char sa_interval.2) := by
  unfold bidir_search
  rw [rank_precalc_ranks stride alphabet fm_index next_char _ hs hc (Nat.le_trans hlr hr),
    rank_precalc_ranks stride alphabet fm_index next_char _ hs hc hr]

/-! ## The claims on `SearchState` -/

/-- C1: for every pair of states `a` and `b`, `a == b` returns true if and only if their
SA interval, variant site path, classification and cached variant site (the cached
pair together with its `cache_populated` flag) are all equal; the only other field,
`invalid`, does not influence the result, whatever it is set to on either side. -/
theorem operator_eq_iff_components (a b : SearchState) :
    (a.operator_eq b = true ↔
      a.sa_interval = b.sa_interval
        ∧ a.variant_site_path = b.variant_site_path
        ∧ a.variant_site_state = b.variant_site_state
        ∧ (a.cached_variant_site, a.cache_populated)
            = (b.cached_variant_site, b.cache_populated))
      ∧ ∀ v w : Bool, (a.set_invalid v).operator_eq (b.set_invalid w) = a.operator_eq b := by
  refine ⟨?_, fun v w => rfl⟩
  rw [operator_eq_iff_fields]
  constructor
  · rintro ⟨h1, h2, h3, h4, h5⟩
    exact ⟨h1, h2, h3, by rw [h4, h5]⟩
  · rintro ⟨h1, h2, h3, h45⟩
    exact ⟨h1, h2, h3, congrArg Prod.snd h45, congrArg Prod.fst h45⟩

/-- C2: the `invalid` flag is not part of equality: setting only the `invalid` field of
`s` to any value `v` leaves both `s == t` and `t == s` unchanged, and a state marked
invalid compares equal to its unmarked copy (in both directions). -/
theorem operator_eq_ignores_invalid (s t : SearchState) (v : Bool) :
    (s.set_invalid v).operator_eq t = s.operator_eq t
      ∧ t.operator_eq (s.set_invalid v) = t.operator_eq s
      ∧ (s.set_invalid true).operator_eq (s.set_invalid false) = true
      ∧ (s.set_invalid false).operator_eq (s.set_invalid true) = true := by
  refine ⟨rfl, rfl, ?_, ?_⟩
  · exact (operator_eq_iff_fields _ _).2 ⟨rfl, rfl, rfl, rfl, rfl⟩
  · exact (operator_eq_iff_fields _ _).2 ⟨rfl, rfl, rfl, rfl, rfl⟩

/-- C3: if `a == b` then the two variant site paths are element-wise equal: same length
and the same (site, allele) pair at every index; two states whose paths hold the same
pairs in a different order, or one of whose paths is a strict prefix of the other,
compare unequal (in both directions). -/
theorem operator_eq_path_elementwise (a b : SearchState) :
    (a.operator_eq b = true →
        a.variant_site_path.length = b.variant_site_path.length
          ∧ ∀ i : Nat, a.variant_site_path[i]? = b.variant_site_path[i]?)
      ∧ (a.variant_site_path.Perm b.variant_site_path →
          a.variant_site_path ≠ b.variant_site_path →
          a.operator_eq b = false ∧ b.operator_eq a = false)
      ∧ (a.variant_site_path <+: b.variant_site_path →
          a.variant_site_path.length < b.variant_site_path.length →
          a.operator_eq b = false ∧ b.operator_eq a = false) := by
  refine ⟨?_, ?_, ?_⟩
  · intro h
    have hp := ((operator_eq_iff_fields a b).1 h).2.1
    exact ⟨by rw [hp], fun i => by rw [hp]⟩
  · intro _ hne
    exact ⟨operator_eq_false_of_path_ne a b hne,
      operator_eq_false_of_path_ne b a (fun h => hne h.symm)⟩
  · intro _ hlt
    have hne : a.variant_site_path ≠ b.variant_site_path := by
      intro h
      rw [h] at hlt
      exact Nat.lt_irrefl _ hlt
    exact ⟨operator_eq_false_of_path_ne a b hne,
      operator_eq_false_of_path_ne b a (fun h => hne h.symm)⟩

/-- C3 at concrete states: a reordered path and a strict prefix both break equality,
while a state equals itself with equal path lengths. -/
theorem operator_eq_path_elementwise_witness :
    example_state.operator_eq example_state_reordered = false
      ∧ example_state_shorter.operator_eq example_state = false
      ∧ example_state.variant_site_path.length = example_state.variant_site_path.length :=
  ⟨((operator_eq_path_elementwise example_state example_state_reordered).2.1
      (by decide) (by decide)).1,
   ((operator_eq_path_elementwise example_state_shorter example_state).2.2
      (by decide) (by decide)).1,
   ((operator_eq_path_elementwise example_state example_state).1 (by decide)).1⟩

/-- C8 fails as stated: two states with equal SA interval, path and classification and
`cache_populated = false` on both sides compare unequal when their
`cached_variant_site` fields differ. -/
theorem unset_cache_value_compared :
    example_state_stale_cache.sa_interval = SearchState.default_constructed.sa_interval
      ∧ example_state_stale_cache.variant_site_path
          = SearchState.default_constructed.variant_site_path
      ∧ example_state_stale_cache.variant_site_state
          = SearchState.default_constructed.variant_site_state
      ∧ example_state_stale_cache.cache_populated = false
      ∧ SearchState.default_constructed.cache_populated = false
      ∧ example_state_stale_cache.operator_eq SearchState.default_constructed = false := by
  decide

/-- C8 as amended: for two states that agree on SA interval, path and classification
and both have `cache_populated = false`, `a == b` holds if and only if their
`cached_variant_site` fields are equal: the flag and the value are two independent
fields, and the value is compared also when the flag is unset. -/
theorem operator_eq_unset_cache (a b : SearchState)
    (hi : a.sa_interval = b.sa_interval)
    (hp : a.variant_site_path = b.variant_site_path)
    (hs : a.variant_site_state = b.variant_site_state)
    (ha : a.cache_populated = false) (hb : b.cache_populated = false) :
    a.operator_eq b = true ↔ a.cached_variant_site = b.cached_variant_site := by
  rw [operator_eq_iff_fields]
  constructor
  · intro h
    exact h.2.2.2.2
  · intro h
    exact ⟨hi, hp, hs, by rw [ha, hb], h⟩

/-- C8 as amended, at the state whose flag is unset while its cached site still holds
`(5, 1)`: against a default-constructed state (cached site `(0, 0)`) every hypothesis
holds and the comparison is false because the two cached sites differ; against its own
copy marked invalid, which holds the same stale site, the comparison is true. -/
theorem operator_eq_unset_cache_witness :
    (example_state_stale_cache.sa_interval = SearchState.default_constructed.sa_interval
      ∧ example_state_stale_cache.variant_site_path
          = SearchState.default_constructed.variant_site_path
      ∧ example_state_stale_cache.variant_site_state
          = SearchState.default_constructed.variant_site_state
      ∧ example_state_stale_cache.cache_populated = false
      ∧ SearchState.default_constructed.cache_populated = false)
      ∧ example_state_stale_cache.cached_variant_site
          ≠ SearchState.default_constructed.cached_variant_site
      ∧ (example_state_stale_cache.operator_eq SearchState.default_constructed = true ↔
          example_state_stale_cache.cached_variant_site
            = SearchState.default_constructed.cached_variant_site)
      ∧ example_state_stale_cache.operator_eq SearchState.default_constructed ≠ true
      ∧ example_state_stale_cache.operator_eq (example_state_stale_cache.set_invalid true)
          = true :=
  ⟨⟨rfl, rfl, rfl, rfl, rfl⟩,
   by decide,
   operator_eq_unset_cache example_state_stale_cache SearchState.default_constructed
     rfl rfl rfl rfl rfl,
   fun h =>
     absurd
       ((operator_eq_unset_cache example_state_stale_cache SearchState.default_constructed
          rfl rfl rfl rfl rfl).1 h)
       (by decide),
   (operator_eq_unset_cache example_state_stale_cache
      (example_state_stale_cache.set_invalid true) rfl rfl rfl rfl rfl).2 rfl⟩

/-- C9: `operator==` is an equivalence relation on search states: reflexive, symmetric
and transitive. -/
theorem operator_eq_equivalence (a b c : SearchState) :
    a.operator_eq a = true
      ∧ (a.operator_eq b = true → b.operator_eq a = true)
      ∧ (a.operator_eq b = true → b.operator_eq c = true → a.operator_eq c = true) := by
  refine ⟨?_, ?_, ?_⟩
  · exact (operator_eq_iff_fields a a).2 ⟨rfl, rfl, rfl, rfl, rfl⟩
  · intro h
    obtain ⟨h1, h2, h3, h4, h5⟩ := (operator_eq_iff_fields a b).1 h
    exact (operator_eq_iff_fields b a).2 ⟨h1.symm, h2.symm, h3.symm, h4.symm, h5.symm⟩
  · intro hab hbc
    obtain ⟨h1, h2, h3, h4, h5⟩ := (operator_eq_iff_fields a b).1 hab
    obtain ⟨k1, k2, k3, k4, k5⟩ := (operator_eq_iff_fields b c).1 hbc
    exact (operator_eq_iff_fields a c).2
      ⟨h1.trans k1, h2.trans k2, h3.trans k3, h4.trans k4, h5.trans k5⟩

/-- C9 at concrete states that differ only in the `invalid` flag. -/
theorem operator_eq_equivalence_witness :
    (example_state.set_invalid true).operator_eq example_state = true
      ∧ (example_state.set_invalid true).operator_eq (example_state.set_invalid true) = true :=
  ⟨(operator_eq_equivalence example_state (example_state.set_invalid true) example_state).2.1
      (by decide),
   (operator_eq_equivalence (example_state.set_invalid true) example_state
      (example_state.set_invalid true)).2.2 (by decide) (by decide)⟩

/-- C10: a default-constructed state has classification `unknown`, an empty path,
`cache_populated = false`, the zero cached variant site, `invalid = false` and the
zero SA interval, whose bounds satisfy `left = right = 0` and hence `left ≤ right`;
two default-constructed states compare equal. -/
theorem default_constructed_fields :
    SearchState.default_constructed.variant_site_state = SearchVariantSiteState.unknown
      ∧ SearchState.default_constructed.variant_site_path = []
      ∧ SearchState.default_constructed.cache_populated = false
      ∧ SearchState.default_constructed.cached_variant_site = (0, 0)
      ∧ SearchState.default_constructed.invalid = false
      ∧ SearchState.default_constructed.sa_interval = (0, 0)
      ∧ SearchState.default_constructed.sa_interval.1
          ≤ SearchState.default_constructed.sa_interval.2
      ∧ SearchState.default_constructed.sa_interval.2
          - SearchState.default_constructed.sa_interval.1 = 0
      ∧ SearchState.default_constructed.operator_eq SearchState.default_constructed = true := by
  decide

/-! ## The claims on the rank cache and the backward-search step -/

/-- C4: for every base character `c` and every SA interval `[left, right)` of the index
with `left ≤ right`, `bidir_search`, run with the rank cache built by `precalc_ranks`,
returns the single interval `(C[c] + rank(c, left), C[c] + rank(c, right))`, where
`C[c]` is the count of symbols of the index smaller than `c` and `rank(c, i)` the
number of occurrences of `c` in BWT positions `[0, i)`. -/
theorem bidir_search_formula (stride : Nat) (alphabet : List Nat) (fm_index : FM_Index)
    (c left right : Nat)
    (hs : 0 < stride) (hc : c ∈ alphabet)
    (hlr : left ≤ right) (hr : right ≤ fm_index.size) :
    bidir_search stride c (left, right) (precalc_ranks stride alphabet fm_index) fm_index
      = some (fm_index.bwt.countP (fun x => decide (x < c)) + (fm_index.bwt.take left).count c,
              fm_index.bwt.countP (fun x => decide (x < c))
                + (fm_index.bwt.take right).count c) :=
  bidir_search_precalc_ranks stride alphabet fm_index c (left, right) hs hc hlr hr

/-- C4 on the example index: extending the match `c` (interval `[3, 6)`) by the base
`a` gives the interval `[1, 2)`. -/
theorem bidir_search_formula_witness :
    0 < 4 ∧ 1 ∈ example_alphabet ∧ 3 ≤ 6 ∧ 6 ≤ example_fm_index.size
      ∧ bidir_search 4 1 (3, 6) (precalc_ranks 4 example_alphabet example_fm_index)
          example_fm_index = some (1, 2) :=
  ⟨by decide, by decide, by decide, by decide,
   bidir_search_formula 4 example_alphabet example_fm_index 1 3 6
     (by decide) (by decide) (by decide) (by decide)⟩

/-- C5: for every base character and every SA interval `[l, r)` of the index with
`l ≤ r`, the backward-search step returns an interval `[l', r')` with `l' ≤ r'` and
`r' - l' ≤ r - l`. -/
theorem bidir_search_never_grows (stride : Nat) (alphabet : List Nat) (fm_index : FM_Index)
    (c l r : Nat)
    (hs : 0 < stride) (hc : c ∈ alphabet) (hlr : l ≤ r) (hr : r ≤ fm_index.size) :
    ∃ next : SA_Interval,
      bidir_search stride c (l, r) (precalc_ranks stride alphabet fm_index) fm_index
          = some next
        ∧ next.1 ≤ next.2 ∧ next.2 - next.1 ≤ r - l := by
  refine ⟨_, bidir_search_precalc_ranks stride alphabet fm_index c (l, r) hs hc hlr hr, ?_, ?_⟩
  · have h := (occ_mono fm_index c l r hlr).1
    show fm_index.C c + fm_index.occ c l ≤ fm_index.C c + fm_index.occ c r
    omega
  · have h := occ_mono fm_index c l r hlr
    show fm_index.C c + fm_index.occ c r - (fm_index.C c + fm_index.occ c l) ≤ r - l
    omega

/-- C5 on the example index: from the whole index `[0, 13)` the base `c` leaves an
interval that is well formed and no wider than 13. -/
theorem bidir_search_never_grows_witness :
    0 < 4 ∧ 2 ∈ example_alphabet ∧ 0 ≤ 13 ∧ 13 ≤ example_fm_index.size
      ∧ ∃ next : SA_Interval,
          bidir_search 4 2 (0, 13) (precalc_ranks 4 example_alphabet example_fm_index)
              example_fm_index = some next
            ∧ next.1 ≤ next.2 ∧ next.2 - next.1 ≤ 13 - 0 :=
  ⟨by decide, by decide, by decide, by decide,
   bidir_search_never_grows 4 example_alphabet example_fm_index 2 0 13
     (by decide) (by decide) (by decide) (by decide)⟩

/-- C6: once `precalc_ranks` has built the rank cache from an index, for every symbol
`c` of the base alphabet and every position `i` with `0 ≤ i ≤` index length, the
cached `rank(c, i)` is the number of occurrences of `c` in BWT positions `[0, i)`. -/
theorem precalc_ranks_rank_exact (stride : Nat) (alphabet : List Nat) (fm_index : FM_Index)
    (c i : Nat) (hs : 0 < stride) (hc : c ∈ alphabet) (hi : i ≤ fm_index.size) :
    rank stride fm_index (precalc_ranks stride alphabet fm_index) c i
      = some ((fm_index.bwt.take i).count c) :=
  rank_precalc_ranks stride alphabet fm_index c i hs hc hi

/-- C6 on the example index: three of the first nine BWT symbols are the base `c`. -/
theorem precalc_ranks_rank_exact_witness :
    0 < 4 ∧ 2 ∈ example_alphabet ∧ 9 ≤ example_fm_index.size
      ∧ rank 4 example_fm_index (precalc_ranks 4 example_alphabet example_fm_index) 2 9
          = some 3 :=
  ⟨by decide, by decide, by decide,
   precalc_ranks_rank_exact 4 example_alphabet example_fm_index 2 9
     (by decide) (by decide) (by decide)⟩

end gram
